import Mathlib

/-!
Verification of `NetAlly_Discovery_JSON` against its specification.

The repository holds two Python scripts:
  * `network_discovery_parser.py` (v2.0.1), the current tool, modelled in
    namespace `NDP`;
  * `netally-network-discovery-parser.py` (v1.0), the legacy variant,
    modelled in namespace `Legacy`.
JSON values flowing through the scripts are modelled by `PyVal`; functions
that can raise a Python exception return `Except PyExc _`.
-/

set_option maxHeartbeats 1000000

/-- Exceptions the modelled code can raise.  `nameError` arises from the
unresolved module-level name `re`; `attrError` from calling `.get` on a value
that is not a dict; `keyError` from subscripting a dict with an absent key;
`typeError` from an operation applied to a value of the wrong type. -/
inductive PyExc where
  | nameError
  | attrError
  | keyError
  | typeError
deriving DecidableEq

/-- A Python/JSON value as produced by `json.load`: null, bool, int, string,
list, or object.  Objects are association lists with (unique) string keys, in
insertion order, matching a Python dict built from a JSON object.  (JSON
floats are not modelled; no value in the repository's data paths is a float.) -/
inductive PyVal where
  | pynull
  | pybool (b : Bool)
  | pyint (n : Int)
  | pystr (s : String)
  | pylist (xs : List PyVal)
  | pydict (entries : List (String × PyVal))

/-- Lookup of `d.get(k)` on a Python dict modelled as an association list with
unique keys: the first (only) binding of `k`, if any. -/
def dictGet (entries : List (String × PyVal)) (k : String) : Option PyVal :=
  (entries.find? (fun p => p.1 == k)).map (fun p => p.2)

/-- Python truthiness (`bool(v)`) for the modelled values: `None` and `False`
are falsy, numbers are truthy iff nonzero, strings/lists/dicts iff nonempty. -/
def PyVal.truthy : PyVal → Bool
  | .pynull => false
  | .pybool b => b
  | .pyint n => n != 0
  | .pystr s => !s.isEmpty
  | .pylist xs => !xs.isEmpty
  | .pydict es => !es.isEmpty

/-! ### The strict IPv4 literal parser (`ipaddress.IPv4Address` on a string)

`ipaddress._ip_int_from_string` splits the string on `'.'`, requires exactly
four parts, and feeds each part to `_parse_octet`, which requires a nonempty
all-ASCII-digit string of at most three characters, without a redundant
leading zero, denoting a value of at most 255.  (The constructor additionally
rejects the empty string and strings containing a slash, but those already
fail the octet checks, so they are not separate cases here.) -/

/-- Value of a digit string under left-to-right base-10 accumulation, as
`int(octet_str, 10)` computes it. -/
def octetVal (o : List Char) : Nat :=
  o.foldl (fun a c => a * 10 + (c.toNat - 48)) 0

/-- One octet check, translated from `ipaddress._parse_octet`: nonempty, only
ASCII decimal digits, at most three characters, no leading zero (except the
single character `'0'` itself), and value at most 255. -/
def isOctetStr (o : List Char) : Bool :=
  !o.isEmpty && o.all (fun c => c.isDigit) && decide (o.length ≤ 3) &&
    (o == ['0'] || o.headD ' ' != '0') && decide (octetVal o ≤ 255)

/-- Splitting a character list on `'.'`, as Python's `str.split('.')` does:
every maximal (possibly empty) run between dots is one part. -/
def splitDot : List Char → List (List Char)
  | [] => [[]]
  | c :: cs =>
    if c = '.' then [] :: splitDot cs
    else
      match splitDot cs with
      | [] => [[c]]
      | p :: ps => (c :: p) :: ps

/-- Whether `ipaddress.IPv4Address` accepts a character list as a dotted-quad
IPv4 literal: exactly four dot-separated parts, each a valid octet string. -/
def validIPv4Chars (l : List Char) : Bool :=
  let octets := splitDot l
  octets.length == 4 && octets.all isOctetStr

/-- String-level entry point of the strict IPv4 literal check. -/
def valid_ipv4_string (s : String) : Bool :=
  validIPv4Chars s.data

/-! ### Specification-side predicate for a strictly well-formed IPv4 literal

Stated from the spec's words: "four dot-separated decimal octets each in
[0,255], with no leading/trailing garbage" and rejecting "octal-looking
octets", i.e. each octet is the canonical decimal numeral of some number at
most 255. -/

/-- Canonical decimal numeral of a natural number, most significant digit
first, with no leading zeros (`0` itself is the single digit `'0'`). -/
def decChars (n : Nat) : List Char :=
  if h : n < 10 then [Char.ofNat (48 + n)]
  else decChars (n / 10) ++ [Char.ofNat (48 + n % 10)]
  termination_by n
  decreasing_by
    exact Nat.div_lt_self (Nat.lt_of_lt_of_le (by omega) (Nat.le_of_not_lt h)) (by omega)

/-- Specification of one octet: the canonical decimal numeral of a number in
[0, 255]. -/
def SpecOctet (o : List Char) : Prop :=
  ∃ n : Nat, n ≤ 255 ∧ o = decChars n

/-- Specification of a strictly well-formed dotted-quad IPv4 literal: four
specification octets joined by single dots, with nothing else. -/
def SpecValidIPv4Chars (l : List Char) : Prop :=
  ∃ o1 o2 o3 o4 : List Char,
    SpecOctet o1 ∧ SpecOctet o2 ∧ SpecOctet o3 ∧ SpecOctet o4 ∧
      l = o1 ++ '.' :: (o2 ++ '.' :: (o3 ++ '.' :: o4))

/-- String-level specification predicate. -/
def SpecValidIPv4 (s : String) : Prop :=
  SpecValidIPv4Chars s.data

/-- Joining parts with single dots, the inverse of `splitDot`. -/
def joinDot : List (List Char) → List Char
  | [] => []
  | [p] => p
  | p :: ps => p ++ '.' :: joinDot ps

/-! ### The counter of `network_discovery_parser.py` (`count_valid_ips`)

The loop body is, per host entry:
  `host_data = host.get("host", {})` — `AttributeError` when `host` is not a
  dict; the default `{}` when the key is absent;
  `ip_v4_address = host_data.get("ip_v4_address")` — `AttributeError` when the
  value under `"host"` is not a dict; `None` when the field is absent;
  `if ip_v4_address:` — Python truthiness;
  `ipaddress.IPv4Address(ip_v4_address)` — counted on success, a warning is
  logged on `ValueError` (all failures of the constructor on the reachable
  value kinds are `ValueError`s).
-/

/-- Whether `ipaddress.IPv4Address(v)` succeeds.  Ints (and bools, which are
ints in Python) take the integer-address path and must lie in [0, 2^32); any
other non-string value is converted with `str()` first, and neither `"None"`
nor the bracketed rendering of a list or dict is a dotted quad (it starts with
a non-digit), so those always fail. -/
def ipv4_ctor_ok : PyVal → Bool
  | .pyint n => decide (0 ≤ n ∧ n < 4294967296)
  | .pybool _ => true
  | .pystr s => valid_ipv4_string s
  | .pynull => false
  | .pylist _ => false
  | .pydict _ => false

namespace NDP

/-- One iteration of the `count_valid_ips` loop: the contribution to the
count, and the list of values logged as invalid (the `except ValueError`
branch with `logging.warning("Invalid IPv4 address: ...")`). -/
def hostStep (host : PyVal) : Except PyExc (Nat × List PyVal) :=
  match host with
  | .pydict es =>
    match dictGet es "host" with
    | some (.pydict hs) =>
      let v := (dictGet hs "ip_v4_address").getD .pynull
      .ok (if v.truthy then (if ipv4_ctor_ok v then (1, []) else (0, [v])) else (0, []))
    | none =>
      .ok (0, [])
    | some _ => .error .attrError
  | _ => .error .attrError

/-- Function `count_valid_ips` of `network_discovery_parser.py`: total count of valid
IPv4 addresses, together with the values logged as invalid, or the first
exception raised.  Iteration order follows the list. -/
def count_valid_ips : List PyVal → Except PyExc (Nat × List PyVal)
  | [] => .ok (0, [])
  | h :: t => do
    let r ← hostStep h
    let rest ← count_valid_ips t
    .ok (r.1 + rest.1, r.2 ++ rest.2)

/-- Shape under which an entry goes through the loop body without an
exception: a dict whose `"host"` value, when present, is itself a dict. -/
def entryWF : PyVal → Bool
  | .pydict es =>
    match dictGet es "host" with
    | none => true
    | some (.pydict _) => true
    | some _ => false
  | _ => false

/-- The `host.ip_v4_address` field of an entry, as both passes read it:
the value under `"ip_v4_address"` of the dict under `"host"`, if both exist. -/
def entryIpField : PyVal → Option PyVal
  | .pydict es =>
    match dictGet es "host" with
    | some (.pydict hs) => dictGet hs "ip_v4_address"
    | _ => none
  | _ => none

/-- The predicate the code effectively counts: the field is present, truthy,
and accepted by `ipaddress.IPv4Address`. -/
def countsB (e : PyVal) : Bool :=
  let v := (entryIpField e).getD .pynull
  v.truthy && ipv4_ctor_ok v

/-- The value the code logs as an invalid address for an entry, if any:
the field's value when it is truthy but rejected. -/
def warnOf (e : PyVal) : Option PyVal :=
  let v := (entryIpField e).getD .pynull
  if v.truthy && !ipv4_ctor_ok v then some v else none

end NDP

/-! ### Rendering of values, as Python's `str()` does inside f-strings

Escaping of special characters inside nested strings of a container's `repr`
is not modelled; every theorem below applies the renderer only to strings
(rendered as themselves), `None`, booleans and integers, where the model is
exact. -/

mutual

/-- Python `repr()` of a value: strings are quoted, `None`, booleans and
integers print canonically, containers print bracketed and comma-separated. -/
def pyRepr : PyVal → String
  | .pynull => "None"
  | .pybool b => if b then "True" else "False"
  | .pyint n => toString n
  | .pystr s => "\x27" ++ s ++ "\x27"
  | .pylist xs => "[" ++ pyReprJoin xs ++ "]"
  | .pydict es => "\x7b" ++ pyReprDict es ++ "\x7d"

/-- Comma-separated `repr`s of list elements. -/
def pyReprJoin : List PyVal → String
  | [] => ""
  | [x] => pyRepr x
  | x :: xs => pyRepr x ++ ", " ++ pyReprJoin xs

/-- Comma-separated `key: value` pairs of a dict's `repr`. -/
def pyReprDict : List (String × PyVal) → String
  | [] => ""
  | [(k, v)] => "\x27" ++ k ++ "\x27: " ++ pyRepr v
  | (k, v) :: es => "\x27" ++ k ++ "\x27: " ++ pyRepr v ++ ", " ++ pyReprDict es

end

/-- Python `str()` of a value: the identity on strings, `repr` otherwise
(for the value kinds that occur here). -/
def pyStr : PyVal → String
  | .pystr s => s
  | v => pyRepr v

/-- Whether `needle` occurs at the start of `hay` (character lists). -/
def listLeads : List Char → List Char → Bool
  | [], _ => true
  | _ :: _, [] => false
  | c :: cs, h :: hs => c == h && listLeads cs hs

/-- Whether `needle` occurs contiguously anywhere in `hay`, as Python's
substring containment `needle in hay` tests it. -/
def listHasRun (needle : List Char) : List Char → Bool
  | [] => needle.isEmpty
  | h :: t => listLeads needle (h :: t) || listHasRun needle t

/-- Python's `k in v` for a string literal `k`, as used on lines 183 and 185
of `network_discovery_parser.py`: key membership for dicts, element equality
for lists (a non-string element never equals a string), substring containment
for strings, `TypeError` otherwise. -/
def pyContainsStr (v : PyVal) (k : String) : Except PyExc Bool :=
  match v with
  | .pydict es => .ok (es.any (fun p => p.1 == k))
  | .pylist xs => .ok (xs.any (fun e => match e with | .pystr s => s == k | _ => false))
  | .pystr s => .ok (listHasRun k.data s.data)
  | _ => .error .typeError

/-- Python's subscript `v[k]` for a string key: dict lookup (with `KeyError`
when absent), `TypeError` on any non-dict. -/
def pySubscr (v : PyVal) (k : String) : Except PyExc PyVal :=
  match v with
  | .pydict es =>
    match dictGet es k with
    | some x => .ok x
    | none => .error .keyError
  | _ => .error .typeError

namespace NDP

/-! ### The presenter (`extract_host_data`, lines 137-164)

Per entry, seven fields are read with `.get(field, "N/A")` and printed with
`print(f"\nHost {index}:")` followed by seven indented lines; the leading
`\n` of the first print yields one blank line before each block. -/

/-- The lines printed for one host entry with 1-based index `index` and host
data dict `hs`, in print order. -/
def hostBlock (index : Nat) (hs : List (String × PyVal)) : List String :=
  let host_id := pyStr ((dictGet hs "host_id").getD (.pystr "N/A"))
  let mac_address := pyStr ((dictGet hs "mac_address").getD (.pystr "N/A"))
  let ip_v4_address := pyStr ((dictGet hs "ip_v4_address").getD (.pystr "N/A"))
  let ip_v4_subnet := pyStr ((dictGet hs "ip_v4_subnet").getD (.pystr "N/A"))
  let ip_v6_address := pyStr ((dictGet hs "ip_v6_address").getD (.pystr "N/A"))
  let mdns_name := pyStr ((dictGet hs "mdns_name").getD (.pystr "N/A"))
  let user_name := pyStr ((dictGet hs "user_name").getD (.pystr "N/A"))
  ["", s!"Host {index}:",
   s!"  Host ID: {host_id}",
   s!"  MAC Address: {mac_address}",
   s!"  IPv4 Address: {ip_v4_address}",
   s!"  IPv4 Subnet: {ip_v4_subnet}",
   s!"  IPv6 Address: {ip_v6_address}",
   s!"  MDNS Name: {mdns_name}",
   s!"  User Name: {user_name}"]

/-- The presenter loop from index `index` on: the lines printed (partial
output is kept when an entry raises) and the exception, if any.  An entry
that is not a dict, or whose `"host"` value is present but not a dict, makes
`.get` raise `AttributeError` after the earlier blocks have been printed. -/
def extract_host_data_aux (index : Nat) : List PyVal → (List String × Option PyExc)
  | [] => ([], none)
  | h :: t =>
    match h with
    | .pydict es =>
      match dictGet es "host" with
      | some (.pydict hs) =>
        let r := extract_host_data_aux (index + 1) t
        (hostBlock index hs ++ r.1, r.2)
      | none =>
        let r := extract_host_data_aux (index + 1) t
        (hostBlock index [] ++ r.1, r.2)
      | some _ => ([], some .attrError)
    | _ => ([], some .attrError)

/-- Function `extract_host_data` of `network_discovery_parser.py`: `enumerate(_, 1)`
starts the numbering at 1. -/
def extract_host_data (hl : List PyVal) : List String × Option PyExc :=
  extract_host_data_aux 1 hl

/-! ### Specification-side description of the presenter's output -/

/-- The seven presented fields, as the spec lists them: printed label and
JSON key. -/
def fieldLabels : List (String × String) :=
  [("Host ID", "host_id"), ("MAC Address", "mac_address"),
   ("IPv4 Address", "ip_v4_address"), ("IPv4 Subnet", "ip_v4_subnet"),
   ("IPv6 Address", "ip_v6_address"), ("MDNS Name", "mdns_name"),
   ("User Name", "user_name")]

/-- One field line: two-space indent, label, colon, the field's value or the
placeholder `N/A` when the field is missing. -/
def specFieldLine (hs : List (String × PyVal)) (p : String × String) : String :=
  let lbl := p.1
  let v := pyStr ((dictGet hs p.2).getD (.pystr "N/A"))
  s!"  {lbl}: {v}"

/-- One host block as the spec describes it: a blank separating line, the
1-based header, then the seven field lines in order. -/
def specBlock (i : Nat) (hs : List (String × PyVal)) : List String :=
  let hd := s!"Host {i}:"
  "" :: hd :: fieldLabels.map (specFieldLine hs)

/-- The host-data dict of an entry (`{}` when the `"host"` key is absent). -/
def entryHostData : PyVal → List (String × PyVal)
  | .pydict es =>
    match dictGet es "host" with
    | some (.pydict hs) => hs
    | _ => []
  | _ => []

/-- All presenter output as the spec describes it: one block per entry, in
sequence order, numbered from 1. -/
def specLines (hl : List PyVal) : List String :=
  ((List.enumFrom 1 hl).map (fun p => specBlock p.1 (entryHostData p.2))).flatten

/-! ### The entry point (`main`, lines 166-213) and its collaborators -/

/-- Names bound at module scope of `network_discovery_parser.py` when
`check_sensitive_data` runs: the imported names of lines 13-20 and the
module-level definitions.  The regex module name `re` is not among them. -/
def moduleImports : List String :=
  ["argparse", "json", "logging", "RotatingFileHandler", "sys", "Path",
   "ipaddress", "List", "Dict", "Any", "Optional",
   "Config", "setup_logging", "parse_arguments", "check_sensitive_data",
   "count_valid_ips", "extract_host_data", "main"]

/-- The two regex literals of `sensitive_patterns` (line 102). -/
def sensitive_patterns : List String :=
  ["api_key\\s*=\\s*[\"\x27].+[\"\x27]", "password\\s*=\\s*[\"\x27].+[\"\x27]"]

/-- Function `check_sensitive_data` (lines 93-113).  `readOk` is whether reading the
file succeeds (an `IOError` is caught inside and yields `False`);
`contentMatches` abstracts whether some pattern matches the content, which
the loop body would compute by calling `re.search` — but the name `re` is
unbound at module scope, so reaching the loop raises `NameError` instead. -/
def check_sensitive_data (readOk : Bool) (contentMatches : Bool) : Except PyExc Bool :=
  if !readOk then .ok false
  else if sensitive_patterns.isEmpty then .ok true
  else if moduleImports.contains "re" then .ok (!contentMatches)
  else .error .nameError

/-- User-facing message of the sensitive-data abort (line 176). -/
def sensitiveMsg : String := "Error: Potential sensitive data detected in input file"

/-- User-facing message of the structure error (line 185). -/
def structMsg : String := "Error: JSON file must contain \x27Detail\x27 and \x27host_list\x27 keys"

/-- User-facing message of the host-list shape error (line 191). -/
def hostListMsg : String := "Error: \x27host_list\x27 must be a list"

/-- User-facing message of a JSON decode error (line 200); the interpolated
path and decoder message are abstracted. -/
def jsonErrMsg : String := "Error: Invalid JSON in <input_path>: <err>"

/-- User-facing message of an I/O error (line 204); the interpolated system
message is abstracted. -/
def ioErrMsg : String := "Error: File operation failed: <err>"

/-- Rendering `str(err)` for the modelled exceptions; exact for the `NameError` the
code actually raises, abstracted for the others (their Python messages
mention the offending runtime type). -/
def excMessage : PyExc → String
  | .nameError => "name \x27re\x27 is not defined"
  | .attrError => "<AttributeError message>"
  | .keyError => "<KeyError message>"
  | .typeError => "<TypeError message>"

/-- User-facing line of the generic handler (line 211). -/
def unexpectedMsg (e : PyExc) : String := "Unexpected error: " ++ excMessage e

/-- The final total line (line 196); its leading `\n` prints as a separate
blank line. -/
def totalMsg (c : Nat) : String := s!"Total Valid IPv4 Address(es): {c}"

/-- The structure check of lines 183-192 up to the `isinstance` test: `.ok
none` when the branch of line 183 fires (missing `Detail` or missing
`host_list`), `.ok (some hl)` with the extracted `host_list` value otherwise;
an exception of the membership test or subscript propagates. -/
def structStage (doc : PyVal) : Except PyExc (Option PyVal) := do
  let hasDetail ← pyContainsStr doc "Detail"
  let bad ←
    if hasDetail then do
      let detail ← pySubscr doc "Detail"
      let hasHL ← pyContainsStr detail "host_list"
      pure (!hasHL)
    else pure true
  if bad then pure none
  else do
    let detail ← pySubscr doc "Detail"
    let hl ← pySubscr detail "host_list"
    pure (some hl)

/-- Observable outcome of one invocation: the process exit status, the lines
printed to stdout (`parser.error` writes to stderr, not modelled), the host
list on which counting was attempted (if reached), whether `json.load`
completed, and whether a `KeyboardInterrupt` fired (it is caught on line 207
and converted to `sys.exit(0)`). -/
structure RunResult where
  exitCode : Nat
  output : List String
  counted : Option (List PyVal)
  loaded : Bool
  interrupted : Bool

/-- Whether the modelled interrupt fires at stage `k`.  Stages: 0 before
argument parsing, 1 before the sensitive-data scan, 2 before the load, 3
before the structure check, 4 before counting, 5 before presenting, 6 before
the total line. -/
def hit (iAt : Option Nat) (k : Nat) : Bool := iAt == some k

/-- Lines 179-213 of `main`, from opening the input file onward: load and
decode, structure-check, count, present, print the total; `except` clauses
map a `JSONDecodeError` or `IOError` to exit 1 with a message, a
`KeyboardInterrupt` to exit 0, and any other exception to exit 1 via the
generic handler.  `readOk` is whether the open/read succeeds and `parsed`
the decode result (`none` = `json.JSONDecodeError`). -/
def processDocument (readOk : Bool) (parsed : Option PyVal) (iAt : Option Nat) : RunResult :=
  if hit iAt 2 then ⟨0, [], none, false, true⟩
  else if !readOk then ⟨1, [ioErrMsg], none, false, false⟩
  else
    match parsed with
    | none => ⟨1, [jsonErrMsg], none, false, false⟩
    | some doc =>
      if hit iAt 3 then ⟨0, [], none, true, true⟩
      else
        match structStage doc with
        | .error e => ⟨1, [unexpectedMsg e], none, true, false⟩
        | .ok none => ⟨1, [structMsg], none, true, false⟩
        | .ok (some hl) =>
          match hl with
          | .pylist xs =>
            if hit iAt 4 then ⟨0, [], none, true, true⟩
            else
              match count_valid_ips xs with
              | .error e => ⟨1, [unexpectedMsg e], some xs, true, false⟩
              | .ok (c, _) =>
                if hit iAt 5 then ⟨0, [], some xs, true, true⟩
                else
                  let pres := extract_host_data xs
                  match pres.2 with
                  | some e => ⟨1, pres.1 ++ [unexpectedMsg e], some xs, true, false⟩
                  | none =>
                    if hit iAt 6 then ⟨0, pres.1, some xs, true, true⟩
                    else ⟨0, pres.1 ++ ["", totalMsg c], some xs, true, false⟩
          | _ => ⟨1, [hostListMsg], none, true, false⟩

/-- Abstract command-line/filesystem situation of one invocation:
whether the input path names an existing file, whether its suffix lowercases
to `.json`, whether reading it succeeds, the JSON decode result, and whether
some sensitive pattern would match the raw content. -/
structure CliInput where
  fileExists : Bool
  extIsJson : Bool
  readOk : Bool
  parsed : Option PyVal
  contentMatches : Bool

/-- Function `main` (lines 166-213) together with `parse_arguments` (lines 84-91):
`parser.error` raises `SystemExit(2)`, which no `except` clause of `main`
catches (it is not an `Exception`), so a missing file or a non-`.json`
suffix ends the process with status 2; a `KeyboardInterrupt` anywhere inside
the `try` is caught and converted to exit 0; the sensitive-data stage either
returns `False` (unreadable file: exit 1 with the sensitive-data message) or
raises `NameError` (caught by the generic handler: exit 1). -/
def mainRun (inp : CliInput) (iAt : Option Nat) : RunResult :=
  if hit iAt 0 then ⟨0, [], none, false, true⟩
  else if !inp.fileExists || !inp.extIsJson then ⟨2, [], none, false, false⟩
  else if hit iAt 1 then ⟨0, [], none, false, true⟩
  else
    match check_sensitive_data inp.readOk inp.contentMatches with
    | .error e => ⟨1, [unexpectedMsg e], none, false, false⟩
    | .ok false => ⟨1, [sensitiveMsg], none, false, false⟩
    | .ok true => processDocument inp.readOk inp.parsed iAt

/-! ### Specification-side predicates used by the claims -/

/-- Whether the `host.ip_v4_address` field of an entry is a string, null, or
absent — the field types of the spec's data model. -/
def ipFieldTyped (e : PyVal) : Bool :=
  match entryIpField e with
  | none => true
  | some .pynull => true
  | some (.pystr _) => true
  | some _ => false

/-- The entries the spec says are counted: the field is present as a string
that is a strictly well-formed IPv4 literal (tied to the `Prop`-level
`SpecValidIPv4` by `specCountsIp_iff`). -/
def specCountsIp (e : PyVal) : Bool :=
  match entryIpField e with
  | some (.pystr s) => valid_ipv4_string s
  | _ => false

/-- Structure failure as claim C6 words it: the document (a mapping) lacks
`Detail`, or its `Detail` mapping lacks `host_list`, or `host_list` is not a
sequence. -/
def StructFails (doc : PyVal) : Prop :=
  (∃ es, doc = .pydict es ∧ dictGet es "Detail" = none) ∨
  (∃ es ds, doc = .pydict es ∧ dictGet es "Detail" = some (.pydict ds) ∧
    dictGet ds "host_list" = none) ∨
  (∃ es ds hv, doc = .pydict es ∧ dictGet es "Detail" = some (.pydict ds) ∧
    dictGet ds "host_list" = some hv ∧ ∀ xs, hv ≠ .pylist xs)

end NDP

/-- A host entry whose `host.ip_v4_address` field is the string `s`; the
shape used by the spec's examples and the repository's tests. -/
def mkIpEntry (s : String) : PyVal :=
  .pydict [("host", .pydict [("ip_v4_address", .pystr s)])]

namespace Legacy

/-! ### The legacy counter (`netally-network-discovery-parser.py`)

Its `count_valid_ips` reads `host["host"]` (a `KeyError` when absent),
compares the field against `None` (so any non-null value, even a falsy one,
is tested), and validates with `socket.inet_aton`, the historical BSD
parser: up to four dot-separated C numerals (decimal, octal with leading
`0`, hex with `0x`), where the last numeral fills all remaining bytes —
so `"1.2.3"` parses as `1.2.0.3`.  The model below follows glibc's
`inet_aton`, which Python's `socket.inet_aton` calls on Linux. -/

/-- Value of a hex digit character. -/
def hexDigitVal (c : Char) : Nat :=
  if c.isDigit then c.toNat - 48
  else if c.toNat ≥ 97 then c.toNat - 97 + 10
  else c.toNat - 65 + 10

/-- ASCII whitespace as C's `isspace`: space, `\t`, `\n`, `\v`, `\f`,
`\r`. -/
def atonIsSpace (c : Char) : Bool :=
  c.toNat == 32 || (c.toNat ≥ 9 && c.toNat ≤ 13)

/-- Whether a character extends a numeral in the given base; base-8 rejects
`8` and `9` by failing the whole parse, so this only covers the continue
cases. -/
def atonHexLetter (c : Char) : Bool :=
  (c.toNat ≥ 97 && c.toNat ≤ 102) || (c.toNat ≥ 65 && c.toNat ≤ 70)

/-- The digit-accumulation loop of `inet_aton`: consumes digit characters in
`base`, accumulating into a 32-bit value (wrap-around on overflow, as the C
code's unsigned arithmetic does); returns `none` when a decimal digit `8` or
`9` appears in base 8, otherwise the value, whether any digit was consumed,
and the rest of the input. -/
def scanNum (base : Nat) (val : Nat) (digit : Bool) :
    List Char → Option (Nat × Bool × List Char)
  | [] => some (val, digit, [])
  | c :: cs =>
    if c.isDigit then
      if base == 8 && (c == '8' || c == '9') then none
      else scanNum base ((val * base + (c.toNat - 48)) % 4294967296) true cs
    else if base == 16 && atonHexLetter c then
      scanNum base ((val * 16 + hexDigitVal c) % 4294967296) true cs
    else some (val, digit, c :: cs)

/-- Upper bound of the final numeral given how many byte commits remain
available (3 = nothing committed yet): the last numeral fills the remaining
4, 3, 2 or 1 bytes. -/
def atonMax : Nat → Nat
  | 3 => 4294967295
  | 2 => 16777215
  | 1 => 65535
  | _ => 255

/-- The outer loop of glibc's `inet_aton`, with `remaining` byte commits
still available (the C code fails a dot once three bytes are committed):
each round requires a leading digit, detects the C base prefix, scans the
numeral, and either commits a byte at a dot or finishes, requiring
end-of-string or whitespace next, at least one digit consumed, and the final
value within the remaining bytes. -/
def atonRun (remaining : Nat) (cs : List Char) : Bool :=
  match cs with
  | [] => false
  | c :: cs' =>
    if !c.isDigit then false
    else
      let p : Nat × Bool × List Char :=
        if c == '0' then
          match cs' with
          | 'x' :: r => (16, false, r)
          | 'X' :: r => (16, false, r)
          | r => (8, true, r)
        else (10, false, c :: cs')
      match scanNum p.1 0 p.2.1 p.2.2 with
      | none => false
      | some (val, digit, rest) =>
        match rest with
        | '.' :: rest' =>
          match remaining with
          | 0 => false
          | r + 1 => if val > 255 then false else atonRun r rest'
        | [] => digit && decide (val ≤ atonMax remaining)
        | c' :: _ =>
          atonIsSpace c' && digit && decide (val ≤ atonMax remaining)

/-- Result of `socket.inet_aton` on a string: whether it parses as a historical
IPv4 numbers-and-dots address (up to three dots may commit bytes). -/
def inet_aton (s : String) : Bool := atonRun 3 s.data

/-- One iteration of the legacy counter's loop. -/
def hostStep (host : PyVal) : Except PyExc Nat :=
  match host with
  | .pydict es =>
    match dictGet es "host" with
    | none => .error .keyError
    | some (.pydict hs) =>
      match dictGet hs "ip_v4_address" with
      | none => .ok 0
      | some .pynull => .ok 0
      | some (.pystr s) => .ok (if inet_aton s then 1 else 0)
      | some _ => .error .typeError
    | some _ => .error .attrError
  | _ => .error .typeError

/-- Function `count_valid_ips` of `netally-network-discovery-parser.py`. -/
def count_valid_ips : List PyVal → Except PyExc Nat
  | [] => .ok 0
  | h :: t => do
    let r ← hostStep h
    let rest ← count_valid_ips t
    .ok (r + rest)

end Legacy

/-! ## Theorems -/

/-! ### Facts about the canonical decimal numeral -/

theorem decChars_small {n : Nat} (h : n < 10) : decChars n = [Char.ofNat (48 + n)] := by
  rw [decChars]; simp [h]

theorem decChars_large {n : Nat} (h : ¬ n < 10) :
    decChars n = decChars (n / 10) ++ [Char.ofNat (48 + n % 10)] := by
  rw [decChars]; simp [h]

theorem charOfNat_digit_isDigit {d : Nat} (h : d < 10) :
    (Char.ofNat (48 + d)).isDigit = true := by
  interval_cases d <;> decide

theorem charOfNat_digit_toNat {d : Nat} (h : d < 10) :
    (Char.ofNat (48 + d)).toNat = 48 + d := by
  interval_cases d <;> decide

theorem decChars_all_digits (n : Nat) : ∀ c ∈ decChars n, c.isDigit = true := by
  induction n using Nat.strong_induction_on with
  | _ n ih =>
    by_cases h : n < 10
    · rw [decChars_small h]
      intro c hc
      simp only [List.mem_singleton] at hc
      exact hc ▸ charOfNat_digit_isDigit h
    · rw [decChars_large h]
      intro c hc
      rcases List.mem_append.mp hc with h1 | h2
      · exact ih (n / 10) (Nat.div_lt_self (by omega) (by omega)) c h1
      · simp only [List.mem_singleton] at h2
        exact h2 ▸ charOfNat_digit_isDigit (Nat.mod_lt _ (by omega))

theorem decChars_ne_nil (n : Nat) : decChars n ≠ [] := by
  by_cases h : n < 10
  · rw [decChars_small h]; simp
  · rw [decChars_large h]; simp

theorem octetVal_append_singleton (l : List Char) (c : Char) :
    octetVal (l ++ [c]) = 10 * octetVal l + (c.toNat - 48) := by
  simp [octetVal, List.foldl_append, Nat.mul_comm]

theorem octetVal_decChars (n : Nat) : octetVal (decChars n) = n := by
  induction n using Nat.strong_induction_on with
  | _ n ih =>
    by_cases h : n < 10
    · rw [decChars_small h]
      simp [octetVal, charOfNat_digit_toNat h]
    · rw [decChars_large h, octetVal_append_singleton,
        ih (n / 10) (Nat.div_lt_self (by omega) (by omega)),
        charOfNat_digit_toNat (Nat.mod_lt _ (by omega))]
      omega

theorem decChars_head_ne_zero {n : Nat} (h : 1 ≤ n) :
    (decChars n).headD ' ' ≠ '0' := by
  induction n using Nat.strong_induction_on with
  | _ n ih =>
    by_cases h10 : n < 10
    · rw [decChars_small h10]
      interval_cases n <;> decide
    · rw [decChars_large h10]
      rw [List.headD_eq_head?, List.head?_append_of_ne_nil _ (decChars_ne_nil (n / 10))]
      rw [← List.headD_eq_head?]
      exact ih (n / 10) (Nat.div_lt_self (by omega) (by omega)) (by omega)

theorem decChars_length_le {n k : Nat} (hk : 1 ≤ k) (h : n < 10 ^ k) :
    (decChars n).length ≤ k := by
  induction n using Nat.strong_induction_on generalizing k with
  | _ n ih =>
    by_cases h10 : n < 10
    · rw [decChars_small h10]; simpa using hk
    · rw [decChars_large h10]
      have hk2 : 2 ≤ k := by
        by_contra hcon
        have : k = 1 := by omega
        subst this; simp at h; omega
      have hdiv : n / 10 < 10 ^ (k - 1) := by
        have : n < 10 * 10 ^ (k - 1) := by
          have : 10 * 10 ^ (k - 1) = 10 ^ k := by
            conv_rhs => rw [show k = (k - 1) + 1 by omega]
            rw [Nat.pow_succ, Nat.mul_comm]
          omega
        omega
      have := ih (n / 10) (Nat.div_lt_self (by omega) (by omega)) (k := k - 1) (by omega) hdiv
      simp only [List.length_append, List.length_singleton]
      omega

theorem isDigit_toNat {c : Char} (h : c.isDigit = true) :
    48 ≤ c.toNat ∧ c.toNat ≤ 57 := by
  simp only [Char.isDigit, Bool.and_eq_true, decide_eq_true_eq] at h
  exact h

theorem octetVal_fold_ge (t : List Char) (acc : Nat) :
    acc ≤ t.foldl (fun a c => a * 10 + (c.toNat - 48)) acc := by
  induction t generalizing acc with
  | nil => simp
  | cons c cs ih =>
    simp only [List.foldl_cons]
    calc acc ≤ acc * 10 + (c.toNat - 48) := by omega
    _ ≤ cs.foldl (fun a c => a * 10 + (c.toNat - 48)) (acc * 10 + (c.toNat - 48)) := ih _

theorem octetVal_pos {l : List Char} (hne : l ≠ [])
    (hhd : l.headD ' ' ≠ '0') (hdig : ∀ c ∈ l, c.isDigit = true) :
    1 ≤ octetVal l := by
  match l, hne with
  | h :: t, _ =>
    have hd : h.isDigit = true := hdig h (List.mem_cons_self _ _)
    have h48 : 48 ≤ h.toNat ∧ h.toNat ≤ 57 := isDigit_toNat hd
    have hz : h.toNat ≠ 48 := by
      intro hcon
      apply hhd
      simp only [List.headD_cons]
      have : h = Char.ofNat 48 := by
        have := Char.ofNat_toNat h
        rw [hcon] at this
        exact this.symm
      simp [this]
    have h1 : 1 ≤ h.toNat - 48 := by omega
    simp only [octetVal, List.foldl_cons]
    calc 1 ≤ 0 * 10 + (h.toNat - 48) := by omega
    _ ≤ _ := octetVal_fold_ge t _

/-- Uniqueness of the canonical decimal numeral: a nonempty digit string with
no redundant leading zero is the canonical numeral of its own value. -/
theorem decChars_octetVal {l : List Char} (hne : l ≠ [])
    (hdig : ∀ c ∈ l, c.isDigit = true)
    (hhd : l = ['0'] ∨ l.headD ' ' ≠ '0') :
    decChars (octetVal l) = l := by
  induction l using List.reverseRecOn with
  | nil => exact absurd rfl hne
  | append_singleton a c iha =>
    have hcdig : c.isDigit = true := hdig c (by simp)
    have hc48 : 48 ≤ c.toNat ∧ c.toNat ≤ 57 := isDigit_toNat hcdig
    match a with
    | [] =>
      simp only [List.nil_append]
      have hv : octetVal [c] = c.toNat - 48 := by simp [octetVal]
      rw [hv, decChars_small (by omega)]
      have : 48 + (c.toNat - 48) = c.toNat := by omega
      rw [this, Char.ofNat_toNat]
    | a0 :: at' =>
      have hane : a0 :: at' ≠ ([] : List Char) := by simp
      have hadig : ∀ x ∈ a0 :: at', x.isDigit = true := by
        intro x hx; exact hdig x (List.mem_append_left _ hx)
      have hahd' : (a0 :: at').headD ' ' ≠ '0' := by
        rcases hhd with hx | hx
        · exfalso
          have := congrArg List.length hx
          simp at this
        · intro hcon
          apply hx
          simp only [List.cons_append, List.headD_cons] at hcon ⊢
          exact hcon
      have hahd : a0 :: at' = ['0'] ∨ (a0 :: at').headD ' ' ≠ '0' := Or.inr hahd'
      have hpos : 1 ≤ octetVal (a0 :: at') := octetVal_pos hane hahd' hadig
      rw [octetVal_append_singleton]
      have hge : ¬ 10 * octetVal (a0 :: at') + (c.toNat - 48) < 10 := by omega
      rw [decChars_large hge]
      have hdv : (10 * octetVal (a0 :: at') + (c.toNat - 48)) / 10 = octetVal (a0 :: at') := by
        omega
      have hmv : (10 * octetVal (a0 :: at') + (c.toNat - 48)) % 10 = c.toNat - 48 := by
        omega
      rw [hdv, hmv, iha hane hadig hahd]
      have : 48 + (c.toNat - 48) = c.toNat := by omega
      rw [this, Char.ofNat_toNat]

/-! ### Equivalence of the code's octet check with the spec octet -/

theorem isOctetStr_iff_SpecOctet (o : List Char) :
    isOctetStr o = true ↔ SpecOctet o := by
  constructor
  · intro h
    simp only [isOctetStr, Bool.and_eq_true, Bool.or_eq_true] at h
    obtain ⟨⟨⟨⟨hne, hdig⟩, _hlen⟩, hzero⟩, hval⟩ := h
    have hne' : o ≠ [] := by
      intro hcon; rw [hcon] at hne; simp at hne
    have hdig' : ∀ c ∈ o, c.isDigit = true := by
      intro c hc
      exact List.all_eq_true.mp hdig c hc
    have hzero' : o = ['0'] ∨ o.headD ' ' ≠ '0' := by
      rcases hzero with h1 | h2
      · left; exact eq_of_beq h1
      · right; simpa using h2
    refine ⟨octetVal o, by simpa using hval, ?_⟩
    exact (decChars_octetVal hne' hdig' hzero').symm
  · rintro ⟨n, hn, rfl⟩
    simp only [isOctetStr, Bool.and_eq_true, Bool.or_eq_true]
    refine ⟨⟨⟨⟨?_, ?_⟩, ?_⟩, ?_⟩, ?_⟩
    · simpa using decChars_ne_nil n
    · exact List.all_eq_true.mpr (decChars_all_digits n)
    · exact decide_eq_true (decChars_length_le (by omega) (show n < 10 ^ 3 by omega))
    · by_cases hz : n = 0
      · left; subst hz; rw [decChars_small (by omega)]; decide
      · right; simpa using decChars_head_ne_zero (by omega)
    · exact decide_eq_true (by rw [octetVal_decChars]; exact hn)

theorem splitDot_ne_nil (l : List Char) : splitDot l ≠ [] := by
  match l with
  | [] => simp [splitDot]
  | c :: cs =>
    simp only [splitDot]
    split
    · simp
    · split
      · simp
      · simp

theorem joinDot_cons_cons (p : List Char) (q : List Char) (ps : List (List Char)) :
    joinDot (p :: q :: ps) = p ++ '.' :: joinDot (q :: ps) := rfl

theorem joinDot_cons_head (c : Char) (p : List Char) (ps : List (List Char)) :
    joinDot ((c :: p) :: ps) = c :: joinDot (p :: ps) := by
  match ps with
  | [] => rfl
  | q :: qs => rfl

theorem splitDot_cons_ex (cs : List Char) : ∃ p ps, splitDot cs = p :: ps := by
  cases h : splitDot cs with
  | nil => exact absurd h (splitDot_ne_nil cs)
  | cons p ps => exact ⟨p, ps, rfl⟩

theorem joinDot_splitDot (l : List Char) : joinDot (splitDot l) = l := by
  induction l with
  | nil => rfl
  | cons c cs ih =>
    obtain ⟨p, ps, hsp⟩ := splitDot_cons_ex cs
    rw [hsp] at ih
    by_cases hc : c = '.'
    · subst hc
      simp [splitDot, hsp, joinDot_cons_cons, List.nil_append, ih]
    · simp only [splitDot, if_neg hc, hsp, joinDot_cons_head, ih]

theorem splitDot_no_dot {l : List Char} (h : '.' ∉ l) : splitDot l = [l] := by
  induction l with
  | nil => rfl
  | cons c cs ih =>
    simp only [List.mem_cons, not_or] at h
    have hc : ¬ c = '.' := fun hh => h.1 hh.symm
    simp [splitDot, if_neg hc, ih h.2]

theorem splitDot_append {a : List Char} (rest : List Char) (h : '.' ∉ a) :
    splitDot (a ++ '.' :: rest) = a :: splitDot rest := by
  induction a with
  | nil => simp [splitDot]
  | cons c cs ih =>
    simp only [List.mem_cons, not_or] at h
    have hc : ¬ c = '.' := fun hh => h.1 hh.symm
    simp [List.cons_append, splitDot, if_neg hc, ih h.2]

theorem SpecOctet.no_dot {o : List Char} (h : SpecOctet o) : '.' ∉ o := by
  obtain ⟨n, _, rfl⟩ := h
  intro hmem
  have := decChars_all_digits n '.' hmem
  simp [Char.isDigit] at this

theorem isOctetStr_no_dot {o : List Char} (h : isOctetStr o = true) : '.' ∉ o :=
  ((isOctetStr_iff_SpecOctet o).mp h).no_dot

/-- The code's strict IPv4 check agrees exactly with the specification's
"four dot-separated decimal octets each in [0,255], nothing else". -/
theorem validIPv4Chars_iff_spec (l : List Char) :
    validIPv4Chars l = true ↔ SpecValidIPv4Chars l := by
  constructor
  · intro h
    simp only [validIPv4Chars, Bool.and_eq_true, beq_iff_eq] at h
    obtain ⟨hlen, hall⟩ := h
    obtain ⟨o1, o2, o3, o4, hsp⟩ :
        ∃ o1 o2 o3 o4, splitDot l = [o1, o2, o3, o4] := by
      obtain ⟨p, ps, he⟩ := splitDot_cons_ex l
      rw [he] at hlen
      simp only [List.length_cons] at hlen
      have hlen3 : ps.length = 3 := by omega
      obtain ⟨a, b, c, rfl⟩ := List.length_eq_three.mp hlen3
      exact ⟨p, a, b, c, he⟩
    rw [hsp] at hall
    simp only [List.all_cons, List.all_nil, Bool.and_eq_true, Bool.and_true] at hall
    obtain ⟨h1, h2, h3, h4⟩ := hall
    refine ⟨o1, o2, o3, o4, (isOctetStr_iff_SpecOctet o1).mp h1,
      (isOctetStr_iff_SpecOctet o2).mp h2, (isOctetStr_iff_SpecOctet o3).mp h3,
      (isOctetStr_iff_SpecOctet o4).mp h4, ?_⟩
    have hjoin := joinDot_splitDot l
    rw [hsp] at hjoin
    simp only [joinDot] at hjoin
    simpa [List.append_assoc] using hjoin.symm
  · rintro ⟨o1, o2, o3, o4, h1, h2, h3, h4, rfl⟩
    have e1 : isOctetStr o1 = true := (isOctetStr_iff_SpecOctet o1).mpr h1
    have e2 : isOctetStr o2 = true := (isOctetStr_iff_SpecOctet o2).mpr h2
    have e3 : isOctetStr o3 = true := (isOctetStr_iff_SpecOctet o3).mpr h3
    have e4 : isOctetStr o4 = true := (isOctetStr_iff_SpecOctet o4).mpr h4
    have hsp : splitDot (o1 ++ '.' :: (o2 ++ '.' :: (o3 ++ '.' :: o4))) = [o1, o2, o3, o4] := by
      rw [splitDot_append _ h1.no_dot, splitDot_append _ h2.no_dot,
        splitDot_append _ h3.no_dot, splitDot_no_dot h4.no_dot]
    simp [validIPv4Chars, hsp, e1, e2, e3, e4]

/-- String-level form of the validator/specification equivalence. -/
theorem valid_ipv4_string_iff_spec (s : String) :
    valid_ipv4_string s = true ↔ SpecValidIPv4 s :=
  validIPv4Chars_iff_spec s.data

namespace NDP

theorem hostStep_of_wf {e : PyVal} (h : entryWF e = true) :
    hostStep e = .ok (if countsB e then 1 else 0, (warnOf e).toList) := by
  match e with
  | .pynull | .pybool _ | .pyint _ | .pystr _ | .pylist _ => simp [entryWF] at h
  | .pydict es =>
    rcases hd : dictGet es "host" with _ | v
    · simp [hostStep, countsB, warnOf, entryIpField, hd, PyVal.truthy]
    · cases v with
      | pydict hs =>
        simp only [hostStep, countsB, warnOf, entryIpField, hd]
        by_cases ht : ((dictGet hs "ip_v4_address").getD .pynull).truthy
        · by_cases hok : ipv4_ctor_ok ((dictGet hs "ip_v4_address").getD .pynull)
          · simp [ht, hok]
          · simp [ht, hok]
        · simp only [Bool.not_eq_true] at ht
          simp [ht]
      | pynull => simp [entryWF, hd] at h
      | pybool b => simp [entryWF, hd] at h
      | pyint n => simp [entryWF, hd] at h
      | pystr s => simp [entryWF, hd] at h
      | pylist xs => simp [entryWF, hd] at h

theorem hostStep_of_bad {e : PyVal} (h : ¬ entryWF e = true) :
    hostStep e = .error .attrError := by
  match e with
  | .pynull | .pybool _ | .pyint _ | .pystr _ | .pylist _ => rfl
  | .pydict es =>
    rcases hd : dictGet es "host" with _ | v
    · simp [entryWF, hd] at h
    · cases v with
      | pydict hs => simp [entryWF, hd] at h
      | pynull => simp [hostStep, hd]
      | pybool b => simp [hostStep, hd]
      | pyint n => simp [hostStep, hd]
      | pystr s => simp [hostStep, hd]
      | pylist xs => simp [hostStep, hd]

theorem ok_bind {ε α β : Type} (a : α) (f : α → Except ε β) :
    (Except.ok a >>= f) = f a := rfl

theorem err_bind {ε α β : Type} (e : ε) (f : α → Except ε β) :
    ((Except.error e : Except ε α) >>= f) = Except.error e := rfl

theorem warnOf_eq_none_of_counts {e : PyVal} (h : countsB e = true) : warnOf e = none := by
  simp only [countsB, Bool.and_eq_true] at h
  simp [warnOf, h.1, h.2]

/-- When every entry is well-shaped, the counter returns normally: the count
is a `countP` over the list and the warnings are the invalid values in
order. -/
theorem count_valid_ips_of_wf {hl : List PyVal} (h : ∀ e ∈ hl, entryWF e = true) :
    count_valid_ips hl = .ok (hl.countP countsB, hl.filterMap warnOf) := by
  induction hl with
  | nil => rfl
  | cons e t ih =>
    have he : entryWF e = true := h e (List.mem_cons_self _ _)
    have ht : ∀ x ∈ t, entryWF x = true := fun x hx => h x (List.mem_cons_of_mem _ hx)
    by_cases hc : countsB e
    · simp only [count_valid_ips, hostStep_of_wf he, ih ht, ok_bind, hc, if_true,
        warnOf_eq_none_of_counts hc, List.countP_cons, List.filterMap_cons]
      simp [Nat.add_comm, hc]
    · simp only [count_valid_ips, hostStep_of_wf he, ih ht, ok_bind, List.countP_cons,
        List.filterMap_cons]
      simp only [Bool.not_eq_true] at hc
      cases hwe : warnOf e <;> simp [hwe, hc]

/-- When some entry is ill-shaped, the counter raises `AttributeError`
(whatever the order of entries). -/
theorem count_valid_ips_of_bad {hl : List PyVal} (h : ∃ e ∈ hl, ¬ entryWF e = true) :
    count_valid_ips hl = .error .attrError := by
  induction hl with
  | nil => simp at h
  | cons e t ih =>
    by_cases he : entryWF e = true
    · have ht : ∃ x ∈ t, ¬ entryWF x = true := by
        obtain ⟨x, hx, hbad⟩ := h
        rcases List.mem_cons.mp hx with rfl | hmem
        · exact absurd he hbad
        · exact ⟨x, hmem, hbad⟩
      simp [count_valid_ips, hostStep_of_wf he, ih ht, ok_bind, err_bind]
    · simp [count_valid_ips, hostStep_of_bad he, err_bind]

end NDP

theorem valid_ipv4_nonempty {s : String} (h : valid_ipv4_string s = true) :
    s.isEmpty = false := by
  cases he : s.isEmpty with
  | false => rfl
  | true =>
    exfalso
    have : s = "" := (String.isEmpty_iff s).mp he
    subst this
    simp [valid_ipv4_string, validIPv4Chars, splitDot] at h

theorem countsB_eq_specCountsIp {e : PyVal}
    (ht : NDP.ipFieldTyped e = true) : NDP.countsB e = NDP.specCountsIp e := by
  simp only [NDP.countsB, NDP.specCountsIp, NDP.ipFieldTyped] at ht ⊢
  rcases hf : NDP.entryIpField e with _ | v
  · simp [PyVal.truthy]
  · rw [hf] at ht
    cases v with
    | pystr s =>
      simp only [Option.getD_some, PyVal.truthy, ipv4_ctor_ok]
      cases hv : valid_ipv4_string s with
      | false => simp
      | true => simp [valid_ipv4_nonempty hv]
    | pynull => simp [PyVal.truthy]
    | pybool b => simp at ht
    | pyint n => simp at ht
    | pylist xs => simp at ht
    | pydict es => simp at ht

/-- C1: for every host list of dictionaries whose optional nested `host`
mapping carries an `ip_v4_address` field that is a string, null, or absent,
`count_valid_ips` returns (without error) exactly the number of entries whose
field is present and is a strictly well-formed dotted-quad IPv4 literal
(`SpecValidIPv4`, four dot-separated decimal octets in [0,255] and nothing
else); absent or null fields are not counted and raise no error. -/
theorem claim_C1_count_matches_spec (hl : List PyVal)
    (h : ∀ e ∈ hl, NDP.entryWF e = true ∧ NDP.ipFieldTyped e = true) :
    (NDP.count_valid_ips hl).map Prod.fst = .ok (hl.countP NDP.specCountsIp) ∧
    (∀ e : PyVal, NDP.specCountsIp e = true ↔
      ∃ s, NDP.entryIpField e = some (.pystr s) ∧ SpecValidIPv4 s) := by
  constructor
  · rw [NDP.count_valid_ips_of_wf (fun e he => (h e he).1)]
    simp only [Except.map, Except.map_ok]
    congr 1
    exact List.countP_congr (fun e he => by
      rw [countsB_eq_specCountsIp (h e he).2])
  · intro e
    simp only [NDP.specCountsIp]
    rcases hf : NDP.entryIpField e with _ | v
    · simp
    · cases v with
      | pystr s =>
        constructor
        · intro hv
          exact ⟨s, rfl, (valid_ipv4_string_iff_spec s).mp hv⟩
        · rintro ⟨s', hs', hspec⟩
          cases hs'
          exact (valid_ipv4_string_iff_spec s).mpr hspec
      | pynull => simp
      | pybool b => simp
      | pyint n => simp
      | pylist xs => simp
      | pydict es => simp

/-- Witness for C1 at the spec's own example list: one valid address and one
invalid string, counted as 1. -/
theorem claim_C1_count_matches_spec_witness :
    (∀ e ∈ [mkIpEntry "192.168.1.100", mkIpEntry "invalid_ip"],
      NDP.entryWF e = true ∧ NDP.ipFieldTyped e = true) ∧
    (NDP.count_valid_ips [mkIpEntry "192.168.1.100", mkIpEntry "invalid_ip"]).map Prod.fst =
      .ok ([mkIpEntry "192.168.1.100", mkIpEntry "invalid_ip"].countP NDP.specCountsIp) :=
  ⟨by decide, (claim_C1_count_matches_spec _ (by decide)).1⟩

/-- C5: the count is invariant under permutation of the host list (and when
an ill-shaped entry makes the counter raise, every permutation raises the
same error). -/
theorem claim_C5_perm (hl₁ hl₂ : List PyVal) (h : hl₁.Perm hl₂) :
    (NDP.count_valid_ips hl₁).map Prod.fst = (NDP.count_valid_ips hl₂).map Prod.fst := by
  by_cases hall : ∀ e ∈ hl₁, NDP.entryWF e = true
  · have hall₂ : ∀ e ∈ hl₂, NDP.entryWF e = true := fun e he =>
      hall e (h.mem_iff.mpr he)
    rw [NDP.count_valid_ips_of_wf hall, NDP.count_valid_ips_of_wf hall₂]
    simp [Except.map, h.countP_eq]
  · push_neg at hall
    obtain ⟨e, he, hbad⟩ := hall
    have h1 : NDP.count_valid_ips hl₁ = .error .attrError :=
      NDP.count_valid_ips_of_bad ⟨e, he, fun hc => hbad hc⟩
    have h2 : NDP.count_valid_ips hl₂ = .error .attrError :=
      NDP.count_valid_ips_of_bad ⟨e, h.mem_iff.mp he, fun hc => hbad hc⟩
    rw [h1, h2]

/-- Witness for C5: swapping a two-element list does not change the count. -/
theorem claim_C5_perm_witness :
    ([mkIpEntry "192.168.1.100", mkIpEntry "invalid_ip"].Perm
      [mkIpEntry "invalid_ip", mkIpEntry "192.168.1.100"]) ∧
    (NDP.count_valid_ips [mkIpEntry "192.168.1.100", mkIpEntry "invalid_ip"]).map Prod.fst =
      (NDP.count_valid_ips [mkIpEntry "invalid_ip", mkIpEntry "192.168.1.100"]).map Prod.fst :=
  ⟨List.Perm.swap _ _ _, claim_C5_perm _ _ (List.Perm.swap _ _ _)⟩

/-- C10: a present but falsy `ip_v4_address` value (the empty string, null,
zero, an empty container, `False`) is treated exactly like an absent field:
the entry contributes no count and no invalid-address warning, and the
counter behaves as if the entry had no fields at all. -/
theorem claim_C10_falsy_field (e : PyVal) (rest : List PyVal)
    (hwf : NDP.entryWF e = true)
    (hfalsy : ((NDP.entryIpField e).getD .pynull).truthy = false) :
    NDP.hostStep e = .ok (0, []) ∧
    NDP.count_valid_ips (e :: rest) = NDP.count_valid_ips (.pydict [] :: rest) := by
  have hc : NDP.countsB e = false := by
    simp [NDP.countsB, hfalsy]
  have hw : NDP.warnOf e = none := by
    simp [NDP.warnOf, hfalsy]
  have hstep : NDP.hostStep e = .ok (0, []) := by
    rw [NDP.hostStep_of_wf hwf, hc, hw]
    rfl
  refine ⟨hstep, ?_⟩
  simp only [NDP.count_valid_ips, hstep]
  rfl

/-- Witness for C10 at the empty-string field. -/
theorem claim_C10_falsy_field_witness :
    (NDP.entryWF (mkIpEntry "") = true ∧
      ((NDP.entryIpField (mkIpEntry "")).getD .pynull).truthy = false) ∧
    NDP.hostStep (mkIpEntry "") = .ok (0, []) ∧
    NDP.count_valid_ips [mkIpEntry ""] = NDP.count_valid_ips [.pydict []] :=
  ⟨⟨by decide, by decide⟩, claim_C10_falsy_field _ [] (by decide) (by decide)⟩

/-- C4 fails as stated: the claim asserts that `" 1.2.3"`-like malformed
strings are rejected by both variants, but the legacy counter, built on
`socket.inet_aton`, accepts `"1.2.3"` (historical `a.b.c` notation, parsing
as `1.2.0.3`) and counts it, returning 1 instead of the claimed 0. -/
theorem claim_C4_counterexample :
    Legacy.count_valid_ips [mkIpEntry "1.2.3"] = .ok 1 ∧
    ¬ Legacy.count_valid_ips [mkIpEntry "1.2.3"] = .ok 0 := by
  refine ⟨rfl, ?_⟩
  intro h
  rw [show Legacy.count_valid_ips [mkIpEntry "1.2.3"] = .ok 1 from rfl] at h
  injection h with h'
  omega

/-- C4 (amended): each of the four malformed strings is rejected by the
`ipaddress`-based counter of `network_discovery_parser.py`; the
`inet_aton`-based counter of the legacy script rejects `"256.1.1.1"`,
`"1.2.3.4.5"` and `" 1.2.3.4"` but accepts `"1.2.3"` and counts it. -/
theorem claim_C4_amended :
    (NDP.count_valid_ips [mkIpEntry "256.1.1.1"]).map Prod.fst = .ok 0 ∧
    (NDP.count_valid_ips [mkIpEntry "1.2.3"]).map Prod.fst = .ok 0 ∧
    (NDP.count_valid_ips [mkIpEntry "1.2.3.4.5"]).map Prod.fst = .ok 0 ∧
    (NDP.count_valid_ips [mkIpEntry " 1.2.3.4"]).map Prod.fst = .ok 0 ∧
    Legacy.count_valid_ips [mkIpEntry "256.1.1.1"] = .ok 0 ∧
    Legacy.count_valid_ips [mkIpEntry "1.2.3.4.5"] = .ok 0 ∧
    Legacy.count_valid_ips [mkIpEntry " 1.2.3.4"] = .ok 0 ∧
    Legacy.count_valid_ips [mkIpEntry "1.2.3"] = .ok 1 :=
  ⟨rfl, rfl, rfl, rfl, rfl, rfl, rfl, rfl⟩

namespace NDP

theorem hostBlock_eq_specBlock (i : Nat) (hs : List (String × PyVal)) :
    hostBlock i hs = specBlock i hs := by
  simp only [hostBlock, specBlock, fieldLabels, List.map_cons, List.map_nil, specFieldLine]
  simp [toString, String.append_empty, String.append_assoc]

theorem extract_aux_spec {hl : List PyVal} (h : ∀ e ∈ hl, entryWF e = true) (i : Nat) :
    extract_host_data_aux i hl =
      (((List.enumFrom i hl).map (fun p => specBlock p.1 (entryHostData p.2))).flatten, none) := by
  induction hl generalizing i with
  | nil => rfl
  | cons e t ih =>
    have he : entryWF e = true := h e (List.mem_cons_self _ _)
    have ht : ∀ x ∈ t, entryWF x = true := fun x hx => h x (List.mem_cons_of_mem _ hx)
    match e with
    | .pynull | .pybool _ | .pyint _ | .pystr _ | .pylist _ => simp [entryWF] at he
    | .pydict es =>
      rcases hd : dictGet es "host" with _ | v
      · simp only [extract_host_data_aux, hd, ih ht, List.enumFrom, List.map_cons,
          List.flatten_cons, entryHostData, hostBlock_eq_specBlock]
      · cases v with
        | pydict hs =>
          simp only [extract_host_data_aux, hd, ih ht, List.enumFrom, List.map_cons,
            List.flatten_cons, entryHostData, hostBlock_eq_specBlock]
        | pynull => simp [entryWF, hd] at he
        | pybool b => simp [entryWF, hd] at he
        | pyint n => simp [entryWF, hd] at he
        | pystr s => simp [entryWF, hd] at he
        | pylist xs => simp [entryWF, hd] at he

end NDP

/-- C8: for every well-shaped host list, `extract_host_data` writes one block
per entry in sequence order with 1-based numbering — a separating blank line,
the `Host i:` header, and the seven named field lines with `N/A` substituted
for missing fields — and the empty host list yields zero blocks, after which
the pipeline prints a blank line and a total of 0 and exits cleanly. -/
theorem claim_C8_presenter (hl : List PyVal) (h : ∀ e ∈ hl, NDP.entryWF e = true) :
    NDP.extract_host_data hl = (NDP.specLines hl, none) ∧
    NDP.extract_host_data [] = ([], none) ∧
    NDP.processDocument true
      (some (.pydict [("Detail", .pydict [("host_list", .pylist [])])])) none =
      ⟨0, ["", NDP.totalMsg 0], some [], true, false⟩ ∧
    NDP.totalMsg 0 = "Total Valid IPv4 Address(es): 0" := by
  refine ⟨NDP.extract_aux_spec h 1, rfl, rfl, rfl⟩

/-- Witness for C8 at a one-entry list whose only field is an address. -/
theorem claim_C8_presenter_witness :
    (∀ e ∈ [mkIpEntry "192.168.1.100"], NDP.entryWF e = true) ∧
    NDP.extract_host_data [mkIpEntry "192.168.1.100"] =
      (NDP.specLines [mkIpEntry "192.168.1.100"], none) :=
  ⟨by decide, (claim_C8_presenter _ (by decide)).1⟩

theorem dictGet_none_any {es : List (String × PyVal)} {k : String}
    (h : dictGet es k = none) : es.any (fun p => p.1 == k) = false := by
  induction es with
  | nil => rfl
  | cons p t ih =>
    by_cases hp : (p.1 == k) = true
    · exfalso
      rw [dictGet, @List.find?_cons_of_pos _ (fun q => q.1 == k) p t hp] at h
      simp at h
    · have hpf : (p.1 == k) = false := by simpa using hp
      rw [dictGet, @List.find?_cons_of_neg _ (fun q => q.1 == k) p t (by simp [hpf])] at h
      simp only [List.any_cons, hpf, Bool.false_or]
      exact ih h

theorem dictGet_some_any {es : List (String × PyVal)} {k : String} {v : PyVal}
    (h : dictGet es k = some v) : es.any (fun p => p.1 == k) = true := by
  induction es with
  | nil => simp [dictGet] at h
  | cons p t ih =>
    by_cases hp : (p.1 == k) = true
    · simp [List.any_cons, hp]
    · have hpf : (p.1 == k) = false := by simpa using hp
      rw [dictGet, @List.find?_cons_of_neg _ (fun q => q.1 == k) p t (by simp [hpf])] at h
      simp only [List.any_cons, hpf, Bool.false_or]
      exact ih h

/-- C6: a parsed document that lacks `Detail`, lacks `Detail.host_list`, or
whose `host_list` is not a sequence, makes the run exit with status 1 and a
structure-error message, without counting valid IPs or presenting any
host. -/
theorem claim_C6_structure_error (doc : PyVal) (h : NDP.StructFails doc) :
    (NDP.processDocument true (some doc) none).exitCode = 1 ∧
    (NDP.processDocument true (some doc) none).counted = none ∧
    ((NDP.processDocument true (some doc) none).output = [NDP.structMsg] ∨
     (NDP.processDocument true (some doc) none).output = [NDP.hostListMsg]) := by
  rcases h with ⟨es, rfl, hnone⟩ | ⟨es, ds, rfl, hsome, hnone2⟩ |
    ⟨es, ds, hv, rfl, hsome, hsome2, hnotlist⟩
  · have hs : NDP.structStage (.pydict es) = .ok none := by
      simp [NDP.structStage, pyContainsStr, dictGet_none_any hnone, NDP.ok_bind,
        pure, Except.pure]
    simp [NDP.processDocument, NDP.hit, hs]
  · have hs : NDP.structStage (.pydict es) = .ok none := by
      simp only [NDP.structStage, pyContainsStr, dictGet_some_any hsome, NDP.ok_bind,
        if_true, pySubscr, hsome, dictGet_none_any hnone2]
      rfl
    simp [NDP.processDocument, NDP.hit, hs]
  · have hs : NDP.structStage (.pydict es) = .ok (some hv) := by
      simp only [NDP.structStage, pyContainsStr, dictGet_some_any hsome, NDP.ok_bind,
        if_true, pySubscr, hsome, dictGet_some_any hsome2, hsome2]
      rfl
    cases hv with
    | pylist xs => exact absurd rfl (hnotlist xs)
    | pynull => simp [NDP.processDocument, NDP.hit, hs]
    | pybool b => simp [NDP.processDocument, NDP.hit, hs]
    | pyint n => simp [NDP.processDocument, NDP.hit, hs]
    | pystr s => simp [NDP.processDocument, NDP.hit, hs]
    | pydict es2 => simp [NDP.processDocument, NDP.hit, hs]

/-- Witness for C6 at the empty JSON object, which lacks `Detail`. -/
theorem claim_C6_structure_error_witness :
    NDP.StructFails (.pydict []) ∧
    (NDP.processDocument true (some (.pydict [])) none).exitCode = 1 ∧
    (NDP.processDocument true (some (.pydict [])) none).counted = none :=
  ⟨Or.inl ⟨[], rfl, rfl⟩,
    (claim_C6_structure_error _ (Or.inl ⟨[], rfl, rfl⟩)).1,
    (claim_C6_structure_error _ (Or.inl ⟨[], rfl, rfl⟩)).2.1⟩

/-- C3: `check_sensitive_data` calls `re.search` but the module never binds
the name `re`, so on every existing, readable `.json` input the scan raises
`NameError`; `main` consequently never reaches the load, structure-check,
count or present stages, and exits with status 1 through the generic
top-level handler, printing the `NameError` message. -/
theorem claim_C3_nameError (inp : NDP.CliInput)
    (h1 : inp.fileExists = true) (h2 : inp.extIsJson = true)
    (h3 : inp.readOk = true) :
    NDP.check_sensitive_data inp.readOk inp.contentMatches = .error .nameError ∧
    NDP.mainRun inp none =
      ⟨1, ["Unexpected error: name \x27re\x27 is not defined"], none, false, false⟩ := by
  obtain ⟨fe, ej, ro, pa, cm⟩ := inp
  simp only at h1 h2 h3
  subst h1; subst h2; subst h3
  exact ⟨rfl, rfl⟩

/-- Witness for C3 at a readable `.json` file containing the empty object. -/
theorem claim_C3_nameError_witness :
    ((⟨true, true, true, some (.pydict []), false⟩ : NDP.CliInput).fileExists = true ∧
      (⟨true, true, true, some (.pydict []), false⟩ : NDP.CliInput).extIsJson = true ∧
      (⟨true, true, true, some (.pydict []), false⟩ : NDP.CliInput).readOk = true) ∧
    NDP.mainRun ⟨true, true, true, some (.pydict []), false⟩ none =
      ⟨1, ["Unexpected error: name \x27re\x27 is not defined"], none, false, false⟩ :=
  ⟨⟨rfl, rfl, rfl⟩, (claim_C3_nameError _ rfl rfl rfl).2⟩

/-- C7: a `KeyboardInterrupt` that fires at any stage of `main`'s processing
is caught and converted to a clean exit with status 0; an interrupt scheduled
past the point the run ends leaves the run unchanged. -/
theorem claim_C7_interrupt (inp : NDP.CliInput) (iAt : Option Nat) :
    (NDP.mainRun inp iAt).exitCode = 0 ∨ NDP.mainRun inp iAt = NDP.mainRun inp none := by
  cases iAt with
  | none => exact Or.inr rfl
  | some k =>
    obtain ⟨fe, ej, ro, pa, cm⟩ := inp
    match k with
    | 0 => exact Or.inl rfl
    | 1 =>
      cases fe with
      | false => exact Or.inr rfl
      | true =>
        cases ej with
        | false => exact Or.inr rfl
        | true => exact Or.inl rfl
    | (k + 2) =>
      cases fe with
      | false => exact Or.inr rfl
      | true =>
        cases ej with
        | false => exact Or.inr rfl
        | true =>
          cases ro with
          | false => exact Or.inr rfl
          | true => exact Or.inr rfl

/-- C2 fails as stated: a nonexistent input file is rejected by
`parser.error`, which raises `SystemExit(2)`; no handler of `main` catches
`SystemExit`, so the process exits with status 2, not the claimed 1. -/
theorem claim_C2_counterexample :
    (NDP.mainRun ⟨false, true, true, none, false⟩ none).exitCode = 2 ∧
    ¬ (NDP.mainRun ⟨false, true, true, none, false⟩ none).exitCode = 1 ∧
    (NDP.mainRun ⟨false, true, true, none, false⟩ none).interrupted = false := by
  refine ⟨rfl, ?_, rfl⟩
  intro h
  rw [show (NDP.mainRun ⟨false, true, true, none, false⟩ none).exitCode = 2 from rfl] at h
  omega

/-- C2 (amended): every invocation ends in an orderly exit with a code
determined as follows — 0 when a user interrupt fires; 2 when argument
validation rejects the input path (nonexistent file or non-`.json` suffix);
1 in every other case (the sensitive-data stage either aborts or raises the
`NameError` that the generic top-level handler converts to exit 1, so no
processing run completes and no fault surfaces unhandled), and every exit-1
path prints a user-facing message. -/
theorem claim_C2_exit_codes (inp : NDP.CliInput) (iAt : Option Nat) :
    ((NDP.mainRun inp iAt).exitCode =
      if (NDP.mainRun inp iAt).interrupted then 0
      else if inp.fileExists && inp.extIsJson then 1 else 2) ∧
    ((NDP.mainRun inp iAt).exitCode = 1 → (NDP.mainRun inp iAt).output ≠ []) := by
  obtain ⟨fe, ej, ro, pa, cm⟩ := inp
  match iAt with
  | none =>
    cases fe <;> cases ej <;> cases ro <;>
      exact ⟨rfl, by first | exact fun _ => List.cons_ne_nil _ _ | exact fun h => nomatch h⟩
  | some 0 => exact ⟨rfl, fun h => nomatch h⟩
  | some 1 =>
    cases fe <;> cases ej <;> cases ro <;>
      exact ⟨rfl, by first | exact fun _ => List.cons_ne_nil _ _ | exact fun h => nomatch h⟩
  | some (k + 2) =>
    cases fe <;> cases ej <;> cases ro <;>
      exact ⟨rfl, by first | exact fun _ => List.cons_ne_nil _ _ | exact fun h => nomatch h⟩

/-- Witness for the amended C2: a run on an existing readable `.json` file
exits 1 and prints a message. -/
theorem claim_C2_exit_codes_witness :
    (NDP.mainRun ⟨true, true, true, some (.pydict []), false⟩ none).exitCode = 1 ∧
    (NDP.mainRun ⟨true, true, true, some (.pydict []), false⟩ none).output ≠ [] :=
  ⟨rfl, (claim_C2_exit_codes ⟨true, true, true, some (.pydict []), false⟩ none).2 rfl⟩

/-- C9: whenever the pipeline reaches counting, the two passes observe the
same host list `xs`: the run presents exactly `xs` and prints as total
exactly the count `count_valid_ips` returns on `xs`, and the presentation is
the block rendering of that same list. -/
theorem claim_C9_consistency (doc : PyVal) (xs : List PyVal) (c : Nat) (w : List PyVal)
    (hstruct : NDP.structStage doc = .ok (some (.pylist xs)))
    (hcount : NDP.count_valid_ips xs = .ok (c, w)) :
    NDP.processDocument true (some doc) none =
      ⟨0, (NDP.extract_host_data xs).1 ++ ["", NDP.totalMsg c], some xs, true, false⟩ ∧
    NDP.extract_host_data xs = (NDP.specLines xs, none) := by
  have hwf : ∀ e ∈ xs, NDP.entryWF e = true := by
    by_contra hc
    push_neg at hc
    obtain ⟨e, he, hbad⟩ := hc
    have hbadrun := NDP.count_valid_ips_of_bad ⟨e, he, hbad⟩
    rw [hbadrun] at hcount
    exact absurd hcount (by simp)
  have hext := NDP.extract_aux_spec hwf 1
  constructor
  · simp only [NDP.processDocument, NDP.hit, hstruct, hcount]
    simp [NDP.extract_host_data, NDP.extract_host_data_aux] at hext ⊢
    simp [NDP.extract_host_data, hext]
  · exact hext

/-- Witness for C9 at a document holding a single valid host. -/
theorem claim_C9_consistency_witness :
    (NDP.structStage (.pydict [("Detail", .pydict [("host_list",
        .pylist [mkIpEntry "10.0.0.1"])])]) =
      .ok (some (.pylist [mkIpEntry "10.0.0.1"])) ∧
     NDP.count_valid_ips [mkIpEntry "10.0.0.1"] = .ok (1, [])) ∧
    NDP.processDocument true
      (some (.pydict [("Detail", .pydict [("host_list", .pylist [mkIpEntry "10.0.0.1"])])]))
      none =
      ⟨0, (NDP.extract_host_data [mkIpEntry "10.0.0.1"]).1 ++ ["", NDP.totalMsg 1],
        some [mkIpEntry "10.0.0.1"], true, false⟩ :=
  ⟨⟨rfl, rfl⟩,
    (claim_C9_consistency
      (.pydict [("Detail", .pydict [("host_list", .pylist [mkIpEntry "10.0.0.1"])])])
      [mkIpEntry "10.0.0.1"] 1 [] rfl rfl).1⟩
